import Mathlib

/-!
Shallow embedding of the cron-job scheduler in
`src/lib/aff4_objects/cronjobs.py` (classes `CronManager`, `CronJob`,
functions `GetStartTime` and `ScheduleSystemCronFlows`).

Modelling conventions, kept uniform throughout:

* Times and durations are integers in a single abstract unit.  The Python
  code mixes microseconds (RDFDatetime) and seconds (`time.time()`); the
  unit mix only scales values and does not change any control flow, so a
  single unit is used.
* Python truthiness of optional durations and datetimes is modelled by the
  value `0` counting as unset (`if lifetime ...`, `if start_time ...`).
  Genuinely absent attributes (`CURRENT_FLOW_URN`, `LAST_RUN_TIME`,
  `LAST_RUN_STATUS`) are `Option` values.
* The external AFF4 flow store is a function from flow URNs (natural
  numbers) to an optional flow state: `none` models a URN whose
  `aff4.FACTORY.Open` raises `InstantiationError` (not a flow).
* Stats counters and events (`cron_job_timeout`, `cron_job_failure`,
  `cron_job_latency`, `cron_internal_error`) are carried explicitly.
* Each call to `Flush` appends a snapshot of the in-memory record to a
  `flushes` journal, so persistence-ordering claims can be stated.
* Exceptions become an `Option RunError` component carrying the state that
  had been built up when the exception escaped.
-/

/-- Terminal status of a cron job run, `grr_rdf.CronJobRunStatus.Status`. -/
inductive RunStatus where
  | OK
  | ERROR
  | TIMEOUT
  deriving Repr, DecidableEq

/-- State of a flow as seen through its runner context
(`rdf_flows.Flow.State`).  Modelled from the spec: the external TaskEngine
reports `QueryStatus(handle) -> Running | Succeeded | Failed`; a status is
terminal exactly when it is not `RUNNING`, and `runner.IsRunning()` in the
(out-of-tree) flow runner is `state == RUNNING`, matching the check
`runner.context.state == rdf_flows.Flow.State.RUNNING` made by
`CronJob.IsRunning`. -/
inductive FlowState where
  | RUNNING
  | TERMINATED
  | ERROR
  deriving Repr, DecidableEq

/-- The fields of `CreateCronJobFlowArgs` that the scheduler reads:
`periodicity`, `lifetime` (0 = unset), `start_time` (0 = unset),
`allow_overruns` and `flow_runner_args.flow_name`. -/
structure CronArgs where
  flowName : String
  periodicity : Int
  lifetime : Int
  startTime : Int
  allowOverruns : Bool
  deriving Repr, DecidableEq

/-- The mutable persisted attributes of one `CronJob` AFF4 object:
`CRON_ARGS`, `DISABLED`, `CURRENT_FLOW_URN`, `LAST_RUN_TIME`,
`LAST_RUN_STATUS`. -/
structure CronJob where
  cronArgs : CronArgs
  disabled : Bool
  currentFlowUrn : Option Nat
  lastRunTime : Option Int
  lastRunStatus : Option RunStatus
  deriving Repr, DecidableEq

/-- The stats sink of the module: counters `cron_job_timeout` and
`cron_job_failure`, and the list of `cron_job_latency` events recorded, in
order. -/
structure Stats where
  timeoutCount : Nat
  failureCount : Nat
  latencyEvents : List Int
  deriving Repr, DecidableEq

/-- Execution state threaded through the `CronJob` methods: the in-memory
record, the stats sink, the journal of flushed record snapshots, the URNs
passed to `flow.GRRFlow.TerminateFlow`, and the URNs of flows started by
`flow.GRRFlow.StartFlow`. -/
structure St where
  job : CronJob
  stats : Stats
  flushes : List CronJob
  terminated : List Nat
  started : List Nat
  deriving Repr, DecidableEq

/-- Read-only environment of one `Run` call: the current time, the view of
the flow store (`none` = the URN does not open as a flow), and the URN that
`flow.GRRFlow.StartFlow` would return. -/
structure Env where
  now : Int
  flowStates : Nat → Option FlowState
  newFlowUrn : Nat

/-- Exceptions that can escape the embedded methods. -/
inductive RunError where
  | lockError
  | noneTypeError
  | instError
  deriving Repr, DecidableEq

/-- Embedding of `CronJob.DueToRun` (cronjobs.py lines 397-426), a pure
function of the record and the current time. -/
def DueToRun (now : Int) (job : CronJob) : Bool :=
  if job.disabled then false
  else
    let expired := match job.lastRunTime with
      | none => true
      | some t => now > t + job.cronArgs.periodicity
    if expired then
      if now < job.cronArgs.startTime then false
      else if job.cronArgs.allowOverruns then true
      else if job.currentFlowUrn = none then true
      else false
    else false

/-- Embedding of `CronJob.IsRunning` (lines 380-395).  Returns the boolean
result together with the updated state: when the stored URN does not open
as a flow, the attribute is deleted and the record flushed. -/
def IsRunning (env : Env) (s : St) : Bool × St :=
  match s.job.currentFlowUrn with
  | none => (false, s)
  | some urn =>
    match env.flowStates urn with
    | none =>
      let j := { s.job with currentFlowUrn := none }
      (false, { s with job := j, flushes := s.flushes ++ [j] })
    | some fs => (fs = FlowState.RUNNING, s)

/-- Embedding of `CronJob.StopCurrentRun` (lines 428-437): terminate the
current flow, set `LAST_RUN_STATUS` to TIMEOUT, delete
`CURRENT_FLOW_URN`, flush. -/
def StopCurrentRun (s : St) : St :=
  match s.job.currentFlowUrn with
  | none => s
  | some urn =>
    let j := { s.job with
                 lastRunStatus := some RunStatus.TIMEOUT,
                 currentFlowUrn := none }
    { s with
        job := j,
        terminated := s.terminated ++ [urn],
        flushes := s.flushes ++ [j] }

/-- Embedding of `CronJob.KillOldFlows` (lines 439-458).  On success
returns whether the flow was killed; reading `LAST_RUN_TIME` when it is
unset raises (modelled as `Except.error` carrying the state so far). -/
def KillOldFlows (env : Env) (s : St) : Except (St × RunError) (Bool × St) :=
  match IsRunning env s with
  | (false, s1) => .ok (false, s1)
  | (true, s1) =>
    match s1.job.lastRunTime with
    | none => .error (s1, RunError.noneTypeError)
    | some t =>
      let lifetime := s1.job.cronArgs.lifetime
      let elapsed := env.now - t
      if lifetime ≠ 0 ∧ elapsed > lifetime then
        let s2 := StopCurrentRun s1
        .ok (true,
          { s2 with stats :=
              { s2.stats with
                  timeoutCount := s2.stats.timeoutCount + 1,
                  latencyEvents := s2.stats.latencyEvents ++ [elapsed] } })
      else .ok (false, s1)

/-- The tail of `CronJob.Run` (lines 504-517): the due-to-run gate followed
by starting a new flow and persisting the handle and `LAST_RUN_TIME`. -/
def startIfDue (env : Env) (force : Bool) (s : St) : St × Option RunError :=
  if ¬force ∧ ¬DueToRun env.now s.job then (s, none)
  else
    let j := { s.job with
                 currentFlowUrn := some env.newFlowUrn,
                 lastRunTime := some env.now }
    ({ s with
         job := j,
         started := s.started ++ [env.newFlowUrn],
         flushes := s.flushes ++ [j] }, none)

/-- Embedding of `CronJob.Run` (lines 460-517): lock check, `KillOldFlows`,
reconciliation of a finished flow, due-to-run gate, start of a new flow. -/
def Run (env : Env) (locked force : Bool) (s : St) : St × Option RunError :=
  if ¬locked then (s, some RunError.lockError)
  else
    match KillOldFlows env s with
    | .error (s1, e) => (s1, some e)
    | .ok (true, s1) => (s1, none)
    | .ok (false, s1) =>
      match s1.job.currentFlowUrn with
      | none => startIfDue env force s1
      | some urn =>
        match env.flowStates urn with
        | none => (s1, some RunError.instError)
        | some fs =>
          if fs = FlowState.RUNNING then startIfDue env force s1
          else if fs = FlowState.ERROR then
            let j := { s1.job with
                         lastRunStatus := some RunStatus.ERROR,
                         currentFlowUrn := none }
            startIfDue env force
              { s1 with
                  job := j,
                  stats := { s1.stats with
                               failureCount := s1.stats.failureCount + 1 },
                  flushes := s1.flushes ++ [j] }
          else
            match s1.job.lastRunTime with
            | none =>
              ({ s1 with job :=
                   { s1.job with lastRunStatus := some RunStatus.OK } },
               some RunError.noneTypeError)
            | some t =>
              let j := { s1.job with
                           lastRunStatus := some RunStatus.OK,
                           currentFlowUrn := none }
              startIfDue env force
                { s1 with
                    job := j,
                    stats := { s1.stats with
                                 latencyEvents :=
                                   s1.stats.latencyEvents ++ [env.now - t] },
                    flushes := s1.flushes ++ [j] }

/-- A completed stats sink with nothing recorded yet. -/
def stats0 : Stats := { timeoutCount := 0, failureCount := 0, latencyEvents := [] }

/-- Job record used in concrete counterexamples: not disabled, short
periodicity, lifetime 5 long exceeded, flow handle 1 outstanding, last run
at time 0. -/
def exJobC2 : CronJob :=
  { cronArgs :=
      { flowName := "SomeFlow", periodicity := 1, lifetime := 5,
        startTime := 0, allowOverruns := false },
    disabled := false,
    currentFlowUrn := some 1,
    lastRunTime := some 0,
    lastRunStatus := none }

/-- Environment at time 100 where flow 1 has terminated cleanly and a new
flow would get URN 7. -/
def exEnvC2 : Env :=
  { now := 100,
    flowStates := fun u => if u = 1 then some FlowState.TERMINATED else none,
    newFlowUrn := 7 }

/-- Initial execution state for the C2 counterexample. -/
def exStC2 : St :=
  { job := exJobC2, stats := stats0, flushes := [], terminated := [],
    started := [] }

/-- A disabled job with no outstanding flow and no run history. -/
def exJobC5 : CronJob :=
  { cronArgs :=
      { flowName := "SomeFlow", periodicity := 1, lifetime := 0,
        startTime := 0, allowOverruns := false },
    disabled := true,
    currentFlowUrn := none,
    lastRunTime := none,
    lastRunStatus := none }

/-- Environment for the C5 counterexample. -/
def exEnvC5 : Env :=
  { now := 100, flowStates := fun _ => none, newFlowUrn := 7 }

/-- Job record for the C6 counterexample: flow 1 outstanding, last run at
time 0, long periodicity so no new run starts after reconciliation. -/
def exJobC6 : CronJob :=
  { cronArgs :=
      { flowName := "SomeFlow", periodicity := 1000, lifetime := 5,
        startTime := 0, allowOverruns := false },
    disabled := false,
    currentFlowUrn := some 1,
    lastRunTime := some 0,
    lastRunStatus := none }

/-- Environment where flow 1 finished in state ERROR. -/
def exEnvC6 : Env :=
  { now := 100,
    flowStates := fun u => if u = 1 then some FlowState.ERROR else none,
    newFlowUrn := 7 }

/-- Initial execution state for the C6 counterexample. -/
def exStC6 : St :=
  { job := exJobC6, stats := stats0, flushes := [], terminated := [],
    started := [] }

/-- A record whose stored flow URN does not open as a flow, with no run
status recorded yet. -/
def exJobC9 : CronJob :=
  { cronArgs :=
      { flowName := "SomeFlow", periodicity := 1, lifetime := 5,
        startTime := 0, allowOverruns := false },
    disabled := true,
    currentFlowUrn := some 1,
    lastRunTime := some 0,
    lastRunStatus := none }

/-- Environment in which no URN opens as a flow. -/
def exEnvC9 : Env :=
  { now := 100, flowStates := fun _ => none, newFlowUrn := 7 }

/-- Initial execution state for the C9 counterexample. -/
def exStC9 : St :=
  { job := exJobC9, stats := stats0, flushes := [], terminated := [],
    started := [] }

/-- Inclusive range of the Python stdlib call random.randint(lo, hi): the
result r satisfies lo <= r <= hi, BOTH endpoints included.  Modelled from
the Python standard library documentation of randint. -/
def RandintRange (lo hi r : Int) : Prop := lo ≤ r ∧ r ≤ hi

/-- Embedding of GetStartTime (lines 209-228): with randomization off the
start time is now; with it on, the start time is the value r drawn by
randint(now, now + window), where window is the frequency of the class. -/
def GetStartTime (randomize : Bool) (now window r : Int) : Int :=
  if ¬randomize then now else r

/-- One stored cron job AFF4 object as `ScheduleFlow` sees it: the
CRON_ARGS attribute (absent on a freshly created object) and the DISABLED
flag. -/
structure StoredJob where
  cronArgs : Option CronArgs
  disabled : Bool
  deriving Repr, DecidableEq

/-- The cron jobs area of the AFF4 store under aff4:/cron, keyed by job
name. -/
def JobStore : Type := String → Option StoredJob

/-- Embedding of `CronManager.ScheduleFlow` (lines 63-101).  A missing or
empty job name (both falsy in Python) is replaced by flowName_uid with uid
the PRNG draw.  If the existing record carries a truthy (nonzero)
start_time, the new args keep that start time.  The record afterwards
holds the computed args and the passed disabled flag; the source skips the
two writes when the values are unchanged, which leaves exactly the same
stored values, so the store is described by the unconditional update.
Returns the updated store and the job name used. -/
def ScheduleFlow (store : JobStore) (cronArgs : CronArgs)
    (jobName : Option String) (uid : Nat) (disabled : Bool) :
    JobStore × String :=
  let name := match jobName with
    | none => cronArgs.flowName ++ "_" ++ toString uid
    | some n =>
      if n = "" then cronArgs.flowName ++ "_" ++ toString uid else n
  let existingArgs := match store name with
    | some sj => sj.cronArgs
    | none => none
  let finalArgs := match existingArgs with
    | some ea =>
      if ea.startTime ≠ 0 then { cronArgs with startTime := ea.startTime }
      else cronArgs
    | none => cronArgs
  (fun m =>
    if m = name then some { cronArgs := some finalArgs, disabled := disabled }
    else store m, name)

/-- The start time currently persisted for a job name, when the record and
its CRON_ARGS exist. -/
def storedStartTime (store : JobStore) (n : String) : Option Int :=
  match store n with
  | some sj =>
    match sj.cronArgs with
    | some a => some a.startTime
    | none => none
  | none => none

/-- One job of a RunOnce tick: whether OpenWithLock can acquire the lease
(false models the LockError raised when another worker holds it), the
environment the job sees, and its execution state. -/
structure TickEntry where
  leaseAvail : Bool
  env : Env
  st : St

/-- The per-job body of `CronManager.RunOnce` in isolation: lease
unavailable leaves the entry untouched; otherwise the locked record is run
and the resulting state kept (state written before an exception escaped
persists). -/
def runOnceStep (force : Bool) (e : TickEntry) : TickEntry :=
  if e.leaseAvail then { e with st := (Run e.env true force e.st).1 } else e

/-- The internal-error count one job contributes to the tick: 1 when the
lease was acquired and `Run` raised (the broad except around it logs and
increments cron_internal_error), 0 otherwise. -/
def runOnceErr (force : Bool) (e : TickEntry) : Nat :=
  if e.leaseAvail then
    if ((Run e.env true force e.st).2).isSome then 1 else 0
  else 0

/-- Embedding of `CronManager.RunOnce` (lines 125-149): iterate the target
jobs in order; for each, try the non-blocking lock - a LockError is
swallowed (`except aff4.LockError: pass`), and with the lock held any
exception from `Run` is caught and counted on cron_internal_error.
Returns the entries after the tick and the number of internal errors
counted. -/
def RunOnce (force : Bool) : List TickEntry → List TickEntry × Nat
  | [] => ([], 0)
  | e :: rest =>
    let processed :=
      if e.leaseAvail then
        let r := Run e.env true force e.st
        ({ e with st := r.1 }, if r.2.isSome then 1 else 0)
      else (e, 0)
    let restResult := RunOnce force rest
    (processed.1 :: restResult.1, processed.2 + restResult.2)

/-- A flow class in flow.GRRFlow.classes as `ScheduleSystemCronFlows` sees
it: its registry name, whether it inherits from SystemCronFlow, its
frequency and lifetime class attributes, and its start_time_randomization
flag. -/
structure FlowClass where
  name : String
  isSystemCron : Bool
  frequency : Int
  lifetime : Int
  startTimeRandomization : Bool
  deriving Repr, DecidableEq

/-- The two exceptions of the validation loop: KeyError for an enabled
name with no flow class, ValueError for an enabled name whose class does
not inherit from SystemCronFlow. -/
inductive SchedError where
  | keyError (name : String)
  | valueError (name : String)
  deriving Repr, DecidableEq

/-- Lookup of a flow class by name (flow.GRRFlow.classes[name]). -/
def findClass (classes : List FlowClass) (n : String) : Option FlowClass :=
  classes.find? (fun c => c.name == n)

/-- The validation loop of `ScheduleSystemCronFlows` (lines 234-242): the
first failing enabled name raises; `none` means all names were valid. -/
def validateEnabled (classes : List FlowClass) :
    List String → Option SchedError
  | [] => none
  | n :: rest =>
    match findClass classes n with
    | none => some (SchedError.keyError n)
    | some c =>
      if ¬c.isSystemCron then some (SchedError.valueError n)
      else validateEnabled classes rest

/-- The CreateCronJobFlowArgs that `ScheduleSystemCronFlows` builds for a
system cron class: periodicity from the class frequency, the class
lifetime, the class name as flow name, the computed start time, overruns
left at the protobuf default (false). -/
def systemCronArgs (now : Int) (rand : String → Int) (c : FlowClass) :
    CronArgs :=
  { flowName := c.name, periodicity := c.frequency, lifetime := c.lifetime,
    startTime :=
      GetStartTime c.startTimeRandomization now c.frequency (rand c.name),
    allowOverruns := false }

/-- The scheduling loop of `ScheduleSystemCronFlows` (lines 244-255):
every class inheriting from SystemCronFlow is scheduled under its own
name, disabled exactly when the name is not in the enabled list. -/
def scheduleAll (enabled : List String) (now : Int) (rand : String → Int) :
    List FlowClass → JobStore → JobStore
  | [], store => store
  | c :: rest, store =>
    scheduleAll enabled now rand rest
      (if c.isSystemCron then
        (ScheduleFlow store (systemCronArgs now rand c) (some c.name) 0
          (!(enabled.contains c.name))).1
      else store)

/-- Embedding of `ScheduleSystemCronFlows` (lines 231-255): every enabled
name is validated before anything is scheduled, so an invalid name aborts
with the store untouched; otherwise the scheduling loop runs over all
classes. -/
def ScheduleSystemCronFlows (classes : List FlowClass)
    (enabled : List String) (now : Int) (rand : String → Int)
    (store : JobStore) : JobStore × Option SchedError :=
  match validateEnabled classes enabled with
  | some e => (store, some e)
  | none => (scheduleAll enabled now rand classes store, none)

/-- The args a `ScheduleFlow` call leaves in the store: the passed args,
except that a set (nonzero) start time already stored wins. -/
def mergedArgs (store : JobStore) (args : CronArgs) (n : String) :
    CronArgs :=
  match store n with
  | some sj =>
    match sj.cronArgs with
    | some ea =>
      if ea.startTime ≠ 0 then { args with startTime := ea.startTime }
      else args
    | none => args
  | none => args

/-- System cron class B used by the C8 witness. -/
def exClassB : FlowClass :=
  { name := "B", isSystemCron := true, frequency := 20, lifetime := 6,
    startTimeRandomization := true }

/-- The class list used by the C8 witness: two system cron classes A and
B, and one plain flow class C. -/
def exClasses : List FlowClass :=
  [{ name := "A", isSystemCron := true, frequency := 10, lifetime := 5,
     startTimeRandomization := false },
   exClassB,
   { name := "C", isSystemCron := false, frequency := 1, lifetime := 1,
     startTimeRandomization := false }]

/-- C1: DueToRun is a pure predicate of the record and the current time,
true iff the job is not disabled, the period has elapsed (an unset last
run time counting as elapsed), now is not before the start time, and
either overruns are allowed or no flow handle is outstanding. -/
theorem dueToRun_iff (now : Int) (job : CronJob) :
    DueToRun now job = true ↔
      job.disabled = false ∧
      (job.lastRunTime = none ∨
        ∃ t, job.lastRunTime = some t ∧ now > t + job.cronArgs.periodicity) ∧
      ¬now < job.cronArgs.startTime ∧
      (job.cronArgs.allowOverruns = true ∨ job.currentFlowUrn = none) := by
  unfold DueToRun
  rcases job with ⟨args, disabled, urn, lastRun, lastStatus⟩
  cases disabled <;> simp
  cases lastRun with
  | none =>
    simp only [Option.some.injEq]
    by_cases h1 : now < args.startTime <;>
      cases hov : args.allowOverruns <;>
        cases urn <;> simp [h1, hov]
  | some t =>
    by_cases h0 : now > t + args.periodicity <;>
      by_cases h1 : now < args.startTime <;>
        cases hov : args.allowOverruns <;>
          cases urn <;> simp [h0, h1, hov]

/-- C2 counterexample: at time 100 job `exJobC2` satisfies the timeout
condition of the claim (handle set, lifetime 5 set, 100 - 0 > 5) and the
finished-run condition (flow 1 is TERMINATED), yet `Run` does NOT take the
timeout path: it reconciles the run as OK, terminates nothing, increments
no timeout counter, and starts a new run (flow 7) in the same call,
because `KillOldFlows` only fires while the flow state is RUNNING. -/
theorem run_timeout_precedence_cex :
    (Run exEnvC2 true false exStC2).1.job.lastRunStatus = some RunStatus.OK ∧
    (Run exEnvC2 true false exStC2).1.stats.timeoutCount = 0 ∧
    (Run exEnvC2 true false exStC2).1.terminated = [] ∧
    (Run exEnvC2 true false exStC2).1.started = [7] ∧
    (Run exEnvC2 true false exStC2).1.job.currentFlowUrn = some 7 := by
  decide

/-- C2 (amended): when the timeout condition holds as the code states it -
handle set, the flow still in state RUNNING, lifetime set and exceeded -
the timeout path is taken: the flow is terminated, LAST_RUN_STATUS becomes
TIMEOUT, the handle is cleared and flushed, the timeout counter and the
elapsed latency are recorded, and Run returns without starting a new
run. -/
theorem run_timeout_path (env : Env) (force : Bool) (s : St) (u : Nat)
    (t : Int)
    (hurn : s.job.currentFlowUrn = some u)
    (hfs : env.flowStates u = some FlowState.RUNNING)
    (ht : s.job.lastRunTime = some t)
    (hl : s.job.cronArgs.lifetime ≠ 0)
    (he : env.now - t > s.job.cronArgs.lifetime) :
    Run env true force s =
      ({ s with
           job := { s.job with
                      lastRunStatus := some RunStatus.TIMEOUT,
                      currentFlowUrn := none },
           stats := { s.stats with
                        timeoutCount := s.stats.timeoutCount + 1,
                        latencyEvents :=
                          s.stats.latencyEvents ++ [env.now - t] },
           flushes := s.flushes ++
             [{ s.job with
                  lastRunStatus := some RunStatus.TIMEOUT,
                  currentFlowUrn := none }],
           terminated := s.terminated ++ [u] }, none) := by
  rcases s with ⟨⟨args, dis, cu, lrt, lrs⟩, sts, fl, tm, sd⟩
  dsimp only at hurn ht hl he
  subst hurn
  subst ht
  simp [Run, KillOldFlows, IsRunning, StopCurrentRun, hfs, hl, he]

/-- C2 witness: the amended theorem applied at a concrete input where the
flow is still running past its lifetime. -/
theorem run_timeout_path_witness :
    Run { now := 100,
          flowStates := fun u => if u = 1 then some FlowState.RUNNING
                                 else none,
          newFlowUrn := 7 } true false exStC2 =
      ({ job := { exJobC2 with
                    lastRunStatus := some RunStatus.TIMEOUT,
                    currentFlowUrn := none },
          stats := { timeoutCount := 1, failureCount := 0,
                     latencyEvents := [100] },
          flushes := [{ exJobC2 with
                          lastRunStatus := some RunStatus.TIMEOUT,
                          currentFlowUrn := none }],
          terminated := [1], started := [] }, none) := by
  have h := run_timeout_path
    { now := 100,
      flowStates := fun u => if u = 1 then some FlowState.RUNNING else none,
      newFlowUrn := 7 } false exStC2 1 0 rfl rfl rfl (by decide) (by decide)
  simpa [exStC2, exJobC2, stats0] using h

/-- C5 counterexample: a forced run (as issued by the RUN action of
`ManageCronJobFlow`, which calls `RunOnce(force=True)`) starts a new flow
on a record whose DISABLED attribute is true, setting CURRENT_FLOW_URN:
`Run` consults `DueToRun` (and hence DISABLED) only when `force` is
false. -/
theorem run_disabled_force_cex :
    (Run exEnvC5 true true
        { job := exJobC5, stats := stats0, flushes := [], terminated := [],
          started := [] }).1.started = [7] ∧
    (Run exEnvC5 true true
        { job := exJobC5, stats := stats0, flushes := [], terminated := [],
          started := [] }).1.job.currentFlowUrn = some 7 ∧
    exJobC5.disabled = true := by
  decide

/-- A non-forced start gate never fires on a disabled record. -/
theorem startIfDue_disabled (env : Env) (s : St)
    (h : s.job.disabled = true) : startIfDue env false s = (s, none) := by
  simp [startIfDue, DueToRun, h]

/-- C5 (amended): a disabled job never transitions to Running through a
non-forced run: for every environment and state whose record is disabled,
`Run` with `force = false` starts no flow, whether or not the record is
locked.  (With `force = true`, by contrast, a disabled job does start, as
`run_disabled_force_cex` shows.) -/
theorem run_disabled_no_start (env : Env) (locked : Bool) (s : St)
    (h : s.job.disabled = true) :
    (Run env locked false s).1.started = s.started := by
  rcases s with ⟨⟨args, dis, cu, lrt, lrs⟩, sts, fl, tm, sd⟩
  dsimp only at h
  subst h
  cases locked
  · simp [Run]
  · cases cu with
    | none => simp [Run, KillOldFlows, IsRunning, startIfDue, DueToRun]
    | some u =>
      cases hf : env.flowStates u with
      | none => simp [Run, KillOldFlows, IsRunning, hf, startIfDue, DueToRun]
      | some fs =>
        cases fs with
        | RUNNING =>
          cases lrt with
          | none => simp [Run, KillOldFlows, IsRunning, hf]
          | some t =>
            by_cases hc : args.lifetime ≠ 0 ∧ env.now - t > args.lifetime
            · simp [Run, KillOldFlows, IsRunning, StopCurrentRun, hf, hc]
            · simp [Run, KillOldFlows, IsRunning, StopCurrentRun, hf, hc,
                startIfDue, DueToRun]
        | ERROR =>
          simp [Run, KillOldFlows, IsRunning, hf, startIfDue, DueToRun]
        | TERMINATED =>
          cases lrt with
          | none => simp [Run, KillOldFlows, IsRunning, hf]
          | some t =>
            simp [Run, KillOldFlows, IsRunning, hf, startIfDue, DueToRun]

/-- C5 witness: the amended theorem at a concrete disabled record. -/
theorem run_disabled_no_start_witness :
    (Run exEnvC5 true false
        { job := exJobC5, stats := stats0, flushes := [], terminated := [],
          started := [] }).1.started = [] :=
  run_disabled_no_start exEnvC5 true
    { job := exJobC5, stats := stats0, flushes := [], terminated := [],
      started := [] } rfl

/-- C6 counterexample: when the finished flow is in state ERROR the
reconcile step sets LAST_RUN_STATUS to ERROR and increments the failure
counter but records NO latency event - the `cron_job_latency` event is
emitted only in the OK branch, contradicting the claim that the latency is
recorded in both outcomes. -/
theorem run_reconcile_latency_cex :
    (Run exEnvC6 true false exStC6).1.job.lastRunStatus =
      some RunStatus.ERROR ∧
    (Run exEnvC6 true false exStC6).1.job.currentFlowUrn = none ∧
    (Run exEnvC6 true false exStC6).1.stats.failureCount = 1 ∧
    (Run exEnvC6 true false exStC6).1.stats.latencyEvents = [] := by
  decide

/-- C6 (amended): when the reconcile step fires (handle set, flow state
terminal, so the timeout path cannot fire), the record gets
LAST_RUN_STATUS = ERROR with the failure counter incremented when the flow
failed, and LAST_RUN_STATUS = OK with the latency `now - lastRunTime`
recorded when it did not (the latency is recorded only in the OK outcome);
in both outcomes the handle is cleared and the record flushed, and
execution falls through to the due-to-run gate (`startIfDue`) in the same
call. -/
theorem run_reconcile (env : Env) (force : Bool) (s : St) (u : Nat)
    (fs : FlowState) (t : Int)
    (hurn : s.job.currentFlowUrn = some u)
    (hfs : env.flowStates u = some fs)
    (hterm : fs ≠ FlowState.RUNNING)
    (ht : s.job.lastRunTime = some t) :
    Run env true force s =
      (if fs = FlowState.ERROR then
        startIfDue env force
          { s with
              job := { s.job with
                         lastRunStatus := some RunStatus.ERROR,
                         currentFlowUrn := none },
              stats := { s.stats with
                           failureCount := s.stats.failureCount + 1 },
              flushes := s.flushes ++
                [{ s.job with
                     lastRunStatus := some RunStatus.ERROR,
                     currentFlowUrn := none }] }
      else
        startIfDue env force
          { s with
              job := { s.job with
                         lastRunStatus := some RunStatus.OK,
                         currentFlowUrn := none },
              stats := { s.stats with
                           latencyEvents :=
                             s.stats.latencyEvents ++ [env.now - t] },
              flushes := s.flushes ++
                [{ s.job with
                     lastRunStatus := some RunStatus.OK,
                     currentFlowUrn := none }] }) := by
  rcases s with ⟨⟨args, dis, cu, lrt, lrs⟩, sts, fl, tm, sd⟩
  dsimp only at hurn ht
  subst hurn
  subst ht
  cases fs with
  | RUNNING => exact absurd rfl hterm
  | ERROR => simp [Run, KillOldFlows, IsRunning, hfs]
  | TERMINATED => simp [Run, KillOldFlows, IsRunning, hfs]

/-- C6 witness: the amended theorem at the concrete failed-flow input. -/
theorem run_reconcile_witness :
    Run exEnvC6 true false exStC6 =
      ({ job := { exJobC6 with
                    lastRunStatus := some RunStatus.ERROR,
                    currentFlowUrn := none },
         stats := { timeoutCount := 0, failureCount := 1,
                    latencyEvents := [] },
         flushes := [{ exJobC6 with
                         lastRunStatus := some RunStatus.ERROR,
                         currentFlowUrn := none }],
         terminated := [], started := [] }, none) := by
  rw [run_reconcile exEnvC6 false exStC6 1 FlowState.ERROR 0 rfl rfl
      (by decide) rfl]
  decide

/-- C9 counterexample: the record starts with CURRENT_FLOW_URN set and no
LAST_RUN_STATUS; `Run` (through the dangling-handle cleanup inside
`CronJob.IsRunning`, lines 387-391) deletes the handle and flushes while
LAST_RUN_STATUS is still unset - a reachable execution that clears the
handle without recording any terminal status in that flush. -/
theorem run_clear_without_status_cex :
    exStC9.job.currentFlowUrn = some 1 ∧
    (Run exEnvC9 true false exStC9).1.flushes =
      [{ exJobC9 with currentFlowUrn := none }] ∧
    ({ exJobC9 with currentFlowUrn := none } : CronJob).currentFlowUrn =
      none ∧
    ({ exJobC9 with currentFlowUrn := none } : CronJob).lastRunStatus =
      none := by
  decide

/-- Run on a record with no flow handle outstanding: only the due-gate
tail executes. -/
theorem run_eq_idle (env : Env) (force : Bool) (s : St)
    (h : s.job.currentFlowUrn = none) :
    Run env true force s = startIfDue env force s := by
  rcases s with ⟨⟨args, dis, cu, lrt, lrs⟩, sts, fl, tm, sd⟩
  dsimp only at h
  subst h
  simp [Run, KillOldFlows, IsRunning]

/-- Run when the stored URN does not open as a flow: `IsRunning` deletes
the dangling handle and flushes, then the due-gate tail executes. -/
theorem run_eq_dangling (env : Env) (force : Bool) (s : St) (u : Nat)
    (hurn : s.job.currentFlowUrn = some u)
    (hf : env.flowStates u = none) :
    Run env true force s =
      startIfDue env force
        { s with
            job := { s.job with currentFlowUrn := none },
            flushes := s.flushes ++
              [{ s.job with currentFlowUrn := none }] } := by
  rcases s with ⟨⟨args, dis, cu, lrt, lrs⟩, sts, fl, tm, sd⟩
  dsimp only at hurn
  subst hurn
  simp [Run, KillOldFlows, IsRunning, hf]

/-- Run when the flow is still running but LAST_RUN_TIME was never set:
`KillOldFlows` raises reading the unset attribute. -/
theorem run_eq_running_fresh (env : Env) (force : Bool) (s : St) (u : Nat)
    (hurn : s.job.currentFlowUrn = some u)
    (hf : env.flowStates u = some FlowState.RUNNING)
    (ht : s.job.lastRunTime = none) :
    Run env true force s = (s, some RunError.noneTypeError) := by
  rcases s with ⟨⟨args, dis, cu, lrt, lrs⟩, sts, fl, tm, sd⟩
  dsimp only at hurn ht
  subst hurn
  subst ht
  simp [Run, KillOldFlows, IsRunning, hf]

/-- Run when the flow is still running with a set lifetime exceeded: the
timeout path of `KillOldFlows` fires and `Run` returns. -/
theorem run_eq_timeout (env : Env) (force : Bool) (s : St) (u : Nat)
    (t : Int)
    (hurn : s.job.currentFlowUrn = some u)
    (hfs : env.flowStates u = some FlowState.RUNNING)
    (ht : s.job.lastRunTime = some t)
    (hl : s.job.cronArgs.lifetime ≠ 0)
    (he : env.now - t > s.job.cronArgs.lifetime) :
    Run env true force s =
      ({ s with
           job := { s.job with
                      lastRunStatus := some RunStatus.TIMEOUT,
                      currentFlowUrn := none },
           stats := { s.stats with
                        timeoutCount := s.stats.timeoutCount + 1,
                        latencyEvents :=
                          s.stats.latencyEvents ++ [env.now - t] },
           flushes := s.flushes ++
             [{ s.job with
                  lastRunStatus := some RunStatus.TIMEOUT,
                  currentFlowUrn := none }],
           terminated := s.terminated ++ [u] }, none) := by
  rcases s with ⟨⟨args, dis, cu, lrt, lrs⟩, sts, fl, tm, sd⟩
  dsimp only at hurn ht hl he
  subst hurn
  subst ht
  simp [Run, KillOldFlows, IsRunning, StopCurrentRun, hfs, hl, he]

/-- Run when the flow is still running and within its lifetime: the record
is untouched and the due-gate tail executes (which, with overruns
disallowed, starts nothing while the handle is set). -/
theorem run_eq_running_alive (env : Env) (force : Bool) (s : St) (u : Nat)
    (t : Int)
    (hurn : s.job.currentFlowUrn = some u)
    (hf : env.flowStates u = some FlowState.RUNNING)
    (ht : s.job.lastRunTime = some t)
    (hc : ¬(s.job.cronArgs.lifetime ≠ 0 ∧
            env.now - t > s.job.cronArgs.lifetime)) :
    Run env true force s = startIfDue env force s := by
  rcases s with ⟨⟨args, dis, cu, lrt, lrs⟩, sts, fl, tm, sd⟩
  dsimp only at hurn ht hc
  subst hurn
  subst ht
  simp [Run, KillOldFlows, IsRunning, hf, hc]

/-- Run when the outstanding flow finished in state ERROR: the reconcile
step records ERROR, increments the failure counter, clears and flushes the
handle, then falls through to the due-gate tail. -/
theorem run_eq_flow_error (env : Env) (force : Bool) (s : St) (u : Nat)
    (hurn : s.job.currentFlowUrn = some u)
    (hf : env.flowStates u = some FlowState.ERROR) :
    Run env true force s =
      startIfDue env force
        { s with
            job := { s.job with
                       lastRunStatus := some RunStatus.ERROR,
                       currentFlowUrn := none },
            stats := { s.stats with
                         failureCount := s.stats.failureCount + 1 },
            flushes := s.flushes ++
              [{ s.job with
                   lastRunStatus := some RunStatus.ERROR,
                   currentFlowUrn := none }] } := by
  rcases s with ⟨⟨args, dis, cu, lrt, lrs⟩, sts, fl, tm, sd⟩
  dsimp only at hurn
  subst hurn
  simp [Run, KillOldFlows, IsRunning, hf]

/-- Run when the outstanding flow finished in a non-error terminal state
but LAST_RUN_TIME was never set: the OK status is written in memory and
the latency computation raises before the flush. -/
theorem run_eq_done_fresh (env : Env) (force : Bool) (s : St) (u : Nat)
    (fs : FlowState)
    (hurn : s.job.currentFlowUrn = some u)
    (hf : env.flowStates u = some fs)
    (h1 : fs ≠ FlowState.RUNNING)
    (h2 : fs ≠ FlowState.ERROR)
    (ht : s.job.lastRunTime = none) :
    Run env true force s =
      ({ s with job := { s.job with lastRunStatus := some RunStatus.OK } },
       some RunError.noneTypeError) := by
  rcases s with ⟨⟨args, dis, cu, lrt, lrs⟩, sts, fl, tm, sd⟩
  dsimp only at hurn ht
  subst hurn
  subst ht
  cases fs with
  | RUNNING => exact absurd rfl h1
  | ERROR => exact absurd rfl h2
  | TERMINATED => simp [Run, KillOldFlows, IsRunning, hf]

/-- Run when the outstanding flow finished in a non-error terminal state:
the reconcile step records OK and the latency, clears and flushes the
handle, then falls through to the due-gate tail. -/
theorem run_eq_done (env : Env) (force : Bool) (s : St) (u : Nat)
    (fs : FlowState) (t : Int)
    (hurn : s.job.currentFlowUrn = some u)
    (hf : env.flowStates u = some fs)
    (h1 : fs ≠ FlowState.RUNNING)
    (h2 : fs ≠ FlowState.ERROR)
    (ht : s.job.lastRunTime = some t) :
    Run env true force s =
      startIfDue env force
        { s with
            job := { s.job with
                       lastRunStatus := some RunStatus.OK,
                       currentFlowUrn := none },
            stats := { s.stats with
                         latencyEvents :=
                           s.stats.latencyEvents ++ [env.now - t] },
            flushes := s.flushes ++
              [{ s.job with
                   lastRunStatus := some RunStatus.OK,
                   currentFlowUrn := none }] } := by
  rcases s with ⟨⟨args, dis, cu, lrt, lrs⟩, sts, fl, tm, sd⟩
  dsimp only at hurn ht
  subst hurn
  subst ht
  cases fs with
  | RUNNING => exact absurd rfl h1
  | ERROR => exact absurd rfl h2
  | TERMINATED => simp [Run, KillOldFlows, IsRunning, hf]

/-- Flushes made by the due-gate/start tail either were already in the
journal or carry the freshly started flow handle. -/
theorem startIfDue_flush_status (env : Env) (force : Bool) (s : St)
    (h : ∀ f ∈ s.flushes, f.currentFlowUrn = none → f.lastRunStatus ≠ none) :
    ∀ f ∈ (startIfDue env force s).1.flushes,
      f.currentFlowUrn = none → f.lastRunStatus ≠ none := by
  intro f hf
  simp only [startIfDue] at hf
  split at hf
  · exact h f hf
  · simp only [List.mem_append, List.mem_singleton] at hf
    rcases hf with hf | hf
    · exact h f hf
    · subst hf; simp

/-- C9 (amended): as long as the stored flow URN actually opens as a flow,
every flush performed during a `Run` call that removes CURRENT_FLOW_URN
carries a terminal LAST_RUN_STATUS set in the same flush (TIMEOUT from
`StopCurrentRun`, ERROR or OK from reconciliation; the flush that starts a
run carries the new handle).  The exception the counterexample exhibits is
exactly the dangling-handle cleanup in `IsRunning`. -/
theorem run_clear_handle_records_status (env : Env) (locked force : Bool)
    (s : St)
    (hd : ∀ u, s.job.currentFlowUrn = some u → env.flowStates u ≠ none)
    (hfl : s.flushes = []) :
    ∀ f ∈ (Run env locked force s).1.flushes,
      f.currentFlowUrn = none → f.lastRunStatus ≠ none := by
  cases locked
  · simp [Run, hfl]
  · cases hcu : s.job.currentFlowUrn with
    | none =>
      rw [run_eq_idle env force s hcu]
      exact startIfDue_flush_status env force s (by simp [hfl])
    | some u =>
      have hne := hd u hcu
      cases hfu : env.flowStates u with
      | none => exact absurd hfu hne
      | some fs =>
        cases fs with
        | RUNNING =>
          cases hlrt : s.job.lastRunTime with
          | none =>
            rw [run_eq_running_fresh env force s u hcu hfu hlrt]
            simp [hfl]
          | some t =>
            by_cases hc : s.job.cronArgs.lifetime ≠ 0 ∧
                env.now - t > s.job.cronArgs.lifetime
            · rw [run_eq_timeout env force s u t hcu hfu hlrt hc.1 hc.2]
              simp [hfl]
            · rw [run_eq_running_alive env force s u t hcu hfu hlrt hc]
              exact startIfDue_flush_status env force s (by simp [hfl])
        | ERROR =>
          rw [run_eq_flow_error env force s u hcu hfu]
          refine startIfDue_flush_status env force _ ?_
          simp [hfl]
        | TERMINATED =>
          cases hlrt : s.job.lastRunTime with
          | none =>
            rw [run_eq_done_fresh env force s u FlowState.TERMINATED hcu hfu
                (by decide) (by decide) hlrt]
            simp [hfl]
          | some t =>
            rw [run_eq_done env force s u FlowState.TERMINATED t hcu hfu
                (by decide) (by decide) hlrt]
            refine startIfDue_flush_status env force _ ?_
            simp [hfl]

/-- C9 witness: the amended theorem at a concrete well-formed input whose
outstanding flow has failed, applied to the reconcile flush made there:
that flush removed the handle, so its run status is a recorded terminal
one. -/
theorem run_clear_handle_records_status_witness :
    ({ exJobC6 with
         lastRunStatus := some RunStatus.ERROR,
         currentFlowUrn := none } : CronJob).lastRunStatus ≠ none :=
  run_clear_handle_records_status exEnvC6 true false exStC6
    (by intro u h; cases h; simp [exEnvC6]) rfl
    { exJobC6 with
        lastRunStatus := some RunStatus.ERROR, currentFlowUrn := none }
    (by decide) rfl

/-- C10: calling Run on a record that is not locked raises LockError
before any of the four steps runs: the state comes back unchanged - no
termination, no reconciliation, no flush, no start - paired with the
error. -/
theorem run_not_locked (env : Env) (force : Bool) (s : St) :
    Run env false force s = (s, some RunError.lockError) := by
  simp [Run]

/-- C7 counterexample: randint includes both endpoints, so with
randomization enabled at now = 0 and periodicity 10 the draw r = 10 is a
legal randint outcome and the computed start time equals now +
periodicity, which lies outside the half-open interval the claim
states. -/
theorem getStartTime_halfopen_cex :
    RandintRange 0 (0 + 10) 10 ∧
    GetStartTime true 0 10 10 = 10 ∧
    ¬(10 : Int) < 0 + 10 := by
  refine ⟨⟨by decide, by decide⟩, rfl, by decide⟩

/-- C7 (amended): with randomization enabled the computed start time is
the randint draw and lies in the CLOSED interval from now to now +
periodicity (randint includes both endpoints); with randomization disabled
it equals now exactly. -/
theorem getStartTime_range (randomize : Bool) (now window r : Int)
    (h : RandintRange now (now + window) r) :
    (randomize = true →
      now ≤ GetStartTime randomize now window r ∧
      GetStartTime randomize now window r ≤ now + window) ∧
    (randomize = false → GetStartTime randomize now window r = now) := by
  constructor
  · intro hr
    subst hr
    simpa [GetStartTime] using h
  · intro hr
    subst hr
    simp [GetStartTime]

/-- C7 witness: the amended theorem at a concrete draw inside the
window. -/
theorem getStartTime_range_witness :
    0 ≤ GetStartTime true 0 10 4 ∧ GetStartTime true 0 10 4 ≤ 0 + 10 :=
  (getStartTime_range true 0 10 4 ⟨by decide, by decide⟩).1 rfl

/-- Scheduling over a record that already stores a set (nonzero) start
time keeps that start time, whatever args the call passes. -/
theorem scheduleFlow_keeps_set_startTime (store : JobStore)
    (args : CronArgs) (n : String) (uid : Nat) (d : Bool) (t : Int)
    (hn : n ≠ "") (h : storedStartTime store n = some t) (ht : t ≠ 0) :
    storedStartTime (ScheduleFlow store args (some n) uid d).1 n =
      some t := by
  have hn2 : (n = "") = False := eq_false hn
  simp only [ScheduleFlow, storedStartTime, hn2, if_false] at h ⊢
  simp only [eq_self_iff_true, if_true]
  rcases hst : store n with _ | sj
  · simp [hst] at h
  · rcases hsa : sj.cronArgs with _ | a
    · simp [hst, hsa] at h
    · simp [hst, hsa] at h ⊢
      subst h
      simp [ht]

/-- C3: scheduling a job under the same name twice preserves the start
time stored by the first call: whenever the first call left a set
(nonzero, hence truthy) start time, a second call with any args, uid and
disabled flag - in particular with a different spec start time - leaves
the stored start time unchanged. -/
theorem scheduleFlow_preserves_startTime (store : JobStore)
    (args1 args2 : CronArgs) (name : String) (uid1 uid2 : Nat)
    (d1 d2 : Bool) (t : Int)
    (hname : name ≠ "")
    (h : storedStartTime (ScheduleFlow store args1 (some name) uid1 d1).1
          name = some t)
    (ht : t ≠ 0) :
    storedStartTime
        (ScheduleFlow (ScheduleFlow store args1 (some name) uid1 d1).1
          args2 (some name) uid2 d2).1 name = some t :=
  scheduleFlow_keeps_set_startTime
    (ScheduleFlow store args1 (some name) uid1 d1).1 args2 name uid2 d2 t
    hname h ht

/-- C3 witness: concrete double scheduling where the second call passes a
different start time. -/
theorem scheduleFlow_preserves_startTime_witness :
    storedStartTime
        (ScheduleFlow
          (ScheduleFlow (fun _ => none)
            { flowName := "F", periodicity := 1, lifetime := 0,
              startTime := 5, allowOverruns := false }
            (some "J") 3 false).1
          { flowName := "F", periodicity := 1, lifetime := 0,
            startTime := 9, allowOverruns := false }
          (some "J") 4 false).1 "J" = some 5 :=
  scheduleFlow_preserves_startTime (fun _ => none)
    { flowName := "F", periodicity := 1, lifetime := 0,
      startTime := 5, allowOverruns := false }
    { flowName := "F", periodicity := 1, lifetime := 0,
      startTime := 9, allowOverruns := false }
    "J" 3 4 false false 5 (by decide) (by decide) (by decide)

/-- C4: RunOnce processes each job independently.  The tick equals the
per-job step mapped over the whole list - so a failing `Run` on one job
never prevents the later jobs from being processed, and the internal-error
counter receives exactly the per-job error contributions - and a job whose
lease is unavailable is skipped with its entry untouched and no error
counted. -/
theorem runOnce_isolates (force : Bool) (l : List TickEntry) :
    RunOnce force l =
      (l.map (runOnceStep force), (l.map (runOnceErr force)).sum) ∧
    ∀ e : TickEntry, e.leaseAvail = false →
      runOnceStep force e = e ∧ runOnceErr force e = 0 := by
  constructor
  · induction l with
    | nil => simp [RunOnce]
    | cons e rest ih =>
      cases hla : e.leaseAvail <;>
        simp [RunOnce, runOnceStep, runOnceErr, ih, hla]
  · intro e h
    simp [runOnceStep, runOnceErr, h]

/-- C4 witness: a tick over one lease-unavailable job and one job whose
run raises (its stored flow URN opens as a running flow but LAST_RUN_TIME
is unset, so reconciliation raises): the first entry is untouched, the
error is counted, and the tick still returns. -/
theorem runOnce_isolates_witness :
    RunOnce false
        [{ leaseAvail := false, env := exEnvC2, st := exStC2 }] =
      ([{ leaseAvail := false, env := exEnvC2, st := exStC2 }], 0) := by
  have h := runOnce_isolates false
    [{ leaseAvail := false, env := exEnvC2, st := exStC2 }]
  have h2 := h.2 { leaseAvail := false, env := exEnvC2, st := exStC2 } rfl
  rw [h.1]
  simp [h2.1, h2.2]

/-- ScheduleFlow at the scheduled name stores the merged args and the
passed disabled flag. -/
theorem scheduleFlow_self_eq (store : JobStore) (args : CronArgs)
    (n : String) (uid : Nat) (d : Bool) (hn : n ≠ "") :
    (ScheduleFlow store args (some n) uid d).1 n =
      some { cronArgs := some (mergedArgs store args n), disabled := d } := by
  have hn2 : (n = "") = False := eq_false hn
  simp only [ScheduleFlow, mergedArgs, hn2, if_false]
  rcases hst : store n with _ | sj <;> simp [hst]

/-- ScheduleFlow leaves every other name untouched. -/
theorem scheduleFlow_other (store : JobStore) (args : CronArgs)
    (n : String) (uid : Nat) (d : Bool) (m : String)
    (hn : n ≠ "") (hm : m ≠ n) :
    (ScheduleFlow store args (some n) uid d).1 m = store m := by
  have hn2 : (n = "") = False := eq_false hn
  have hm2 : (m = n) = False := eq_false hm
  simp [ScheduleFlow, hn2, hm2]

/-- The merged args keep the flow name, periodicity and lifetime of the
passed args (only the start time can come from the old record). -/
theorem mergedArgs_fields (store : JobStore) (args : CronArgs)
    (n : String) :
    (mergedArgs store args n).flowName = args.flowName ∧
    (mergedArgs store args n).periodicity = args.periodicity ∧
    (mergedArgs store args n).lifetime = args.lifetime := by
  unfold mergedArgs
  rcases hst : store n with _ | sj <;> simp [hst]
  rcases hsa : sj.cronArgs with _ | a <;> simp [hsa]
  split <;> simp

/-- The scheduling loop writes only at the names of its classes. -/
theorem scheduleAll_other (enabled : List String) (now : Int)
    (rand : String → Int) (cs : List FlowClass) (store : JobStore)
    (m : String)
    (hm : ∀ c ∈ cs, c.name ≠ m) (hne : ∀ c ∈ cs, c.name ≠ "") :
    scheduleAll enabled now rand cs store m = store m := by
  induction cs generalizing store with
  | nil => rfl
  | cons c rest ih =>
    simp only [scheduleAll]
    rw [ih _ (fun d hd => hm d (List.mem_cons_of_mem c hd))
        (fun d hd => hne d (List.mem_cons_of_mem c hd))]
    by_cases hcs : c.isSystemCron
    · rw [if_pos hcs]
      exact scheduleFlow_other store (systemCronArgs now rand c) c.name 0
        (!(enabled.contains c.name)) m
        (hne c (List.mem_cons_self c rest))
        (fun h => hm c (List.mem_cons_self c rest) h.symm)
    · rw [if_neg hcs]

/-- After the scheduling loop, every system cron class has a record under
its own name with its periodicity, lifetime and flow name, disabled
exactly when the name is not enabled. -/
theorem scheduleAll_spec (enabled : List String) (now : Int)
    (rand : String → Int) (cs : List FlowClass) (store : JobStore)
    (hnd : (cs.map FlowClass.name).Nodup) (hne : ∀ c ∈ cs, c.name ≠ "") :
    ∀ c ∈ cs, c.isSystemCron = true →
      ∃ sj, scheduleAll enabled now rand cs store c.name = some sj ∧
        sj.disabled = !(enabled.contains c.name) ∧
        ∃ a, sj.cronArgs = some a ∧ a.flowName = c.name ∧
          a.periodicity = c.frequency ∧ a.lifetime = c.lifetime := by
  induction cs generalizing store with
  | nil => intro c hc; simp at hc
  | cons c0 rest ih =>
    intro c hc hsys
    have hnd0 : (∀ x ∈ rest, ¬x.name = c0.name) ∧
        (List.map FlowClass.name rest).Nodup := by simpa using hnd
    rcases List.mem_cons.mp hc with rfl | hcr
    · simp only [scheduleAll]
      rw [scheduleAll_other enabled now rand rest _ c.name
          (fun d hd hdm => hnd0.1 d hd hdm)
          (fun d hd => hne d (List.mem_cons_of_mem c hd))]
      rw [if_pos hsys]
      rw [scheduleFlow_self_eq store (systemCronArgs now rand c) c.name 0
          (!(enabled.contains c.name)) (hne c (List.mem_cons_self c rest))]
      refine ⟨_, rfl, rfl, mergedArgs store (systemCronArgs now rand c) c.name,
        rfl, ?_⟩
      have hf := mergedArgs_fields store (systemCronArgs now rand c) c.name
      simpa [systemCronArgs] using hf
    · simp only [scheduleAll]
      exact ih _ hnd0.2 (fun d hd => hne d (List.mem_cons_of_mem c0 hd))
        c hcr hsys

/-- If every enabled name has a system cron class, validation passes. -/
theorem validateEnabled_eq_none (classes : List FlowClass)
    (enabled : List String)
    (h : ∀ n ∈ enabled, ∃ c, findClass classes n = some c ∧
        c.isSystemCron = true) :
    validateEnabled classes enabled = none := by
  induction enabled with
  | nil => rfl
  | cons n rest ih =>
    rcases h n (List.mem_cons_self n rest) with ⟨c, hfc, hsys⟩
    simp only [validateEnabled, hfc, hsys]
    simpa using ih (fun m hm => h m (List.mem_cons_of_mem n hm))

/-- If some enabled name has no system cron class of that name, validation
raises. -/
theorem validateEnabled_isSome (classes : List FlowClass)
    (enabled : List String)
    (h : ∃ n ∈ enabled, ∀ c ∈ classes, c.name = n →
        c.isSystemCron = false) :
    ∃ e, validateEnabled classes enabled = some e := by
  induction enabled with
  | nil => simp at h
  | cons n rest ih =>
    rcases h with ⟨m, hm, hbad⟩
    rcases List.mem_cons.mp hm with rfl | hmr
    · cases hfc : findClass classes m with
      | none => exact ⟨SchedError.keyError m, by simp [validateEnabled, hfc]⟩
      | some c =>
        have hcn : c.name = m :=
          by simpa using List.find?_some hfc
        have hcm : c ∈ classes := List.mem_of_find?_eq_some hfc
        have : c.isSystemCron = false := hbad c hcm hcn
        exact ⟨SchedError.valueError m,
          by simp [validateEnabled, hfc, this]⟩
    · cases hfc : findClass classes n with
      | none => exact ⟨SchedError.keyError n, by simp [validateEnabled, hfc]⟩
      | some c =>
        by_cases hcs : c.isSystemCron
        · rcases ih ⟨m, hmr, hbad⟩ with ⟨e, he⟩
          exact ⟨e, by simp [validateEnabled, hfc, hcs, he]⟩
        · exact ⟨SchedError.valueError n,
            by simp [validateEnabled, hfc, hcs]⟩

/-- C8: if some enabled built-in name has no flow class inheriting from
SystemCronFlow, the bootstrap raises and aborts before scheduling
anything, leaving the store exactly as it was; if every enabled name is
valid, no error is raised and every system cron flow class gets a record
under its own name - with its frequency as periodicity, its lifetime, and
its name as flow name - disabled exactly when the name is not in the
enabled list.  (Class names are assumed distinct and nonempty, as Python
class registry names are.) -/
theorem scheduleSystemCronFlows_spec (classes : List FlowClass)
    (enabled : List String) (now : Int) (rand : String → Int)
    (store : JobStore)
    (hnd : (classes.map FlowClass.name).Nodup)
    (hne : ∀ c ∈ classes, c.name ≠ "") :
    ((∃ n ∈ enabled, ∀ c ∈ classes, c.name = n → c.isSystemCron = false) →
      ∃ e, ScheduleSystemCronFlows classes enabled now rand store =
        (store, some e)) ∧
    ((∀ n ∈ enabled, ∃ c ∈ classes, c.name = n ∧ c.isSystemCron = true) →
      (ScheduleSystemCronFlows classes enabled now rand store).2 = none ∧
      ∀ c ∈ classes, c.isSystemCron = true →
        ∃ sj, (ScheduleSystemCronFlows classes enabled now rand store).1
            c.name = some sj ∧
          sj.disabled = !(enabled.contains c.name) ∧
          ∃ a, sj.cronArgs = some a ∧ a.flowName = c.name ∧
            a.periodicity = c.frequency ∧ a.lifetime = c.lifetime) := by
  constructor
  · intro hbad
    rcases validateEnabled_isSome classes enabled hbad with ⟨e, he⟩
    exact ⟨e, by simp [ScheduleSystemCronFlows, he]⟩
  · intro hgood
    have hval : validateEnabled classes enabled = none := by
      apply validateEnabled_eq_none
      intro n hn
      rcases hgood n hn with ⟨c, hcm, hcn, hsys⟩
      have hsome : (classes.find? (fun d => d.name == n)).isSome := by
        rw [List.find?_isSome]
        exact ⟨c, hcm, by simpa using hcn⟩
      rcases Option.isSome_iff_exists.mp hsome with ⟨c2, hc2⟩
      have hc2n : c2.name = n := by simpa using List.find?_some hc2
      have hc2m : c2 ∈ classes := List.mem_of_find?_eq_some hc2
      have : c2 = c :=
        List.inj_on_of_nodup_map hnd hc2m hcm (by rw [hc2n, hcn])
      exact ⟨c2, hc2, by rw [this, hsys]⟩
    constructor
    · simp [ScheduleSystemCronFlows, hval]
    · intro c hc hsys
      have := scheduleAll_spec enabled now rand classes store hnd hne c hc
        hsys
      simpa [ScheduleSystemCronFlows, hval] using this

/-- C8 witness: with only A enabled, scheduling succeeds; the record for B
exists and is disabled; and enabling the unknown name Z makes the
bootstrap return the untouched store with an error. -/
theorem scheduleSystemCronFlows_spec_witness :
    ((ScheduleSystemCronFlows exClasses ["A"] 0 (fun _ => 3)
        (fun _ => none)).2 = none ∧
      ∃ sj, (ScheduleSystemCronFlows exClasses ["A"] 0 (fun _ => 3)
          (fun _ => none)).1 "B" = some sj ∧
        sj.disabled = !(["A"].contains "B") ∧
        ∃ a, sj.cronArgs = some a ∧ a.flowName = "B" ∧
          a.periodicity = 20 ∧ a.lifetime = 6) ∧
    (∃ e, ScheduleSystemCronFlows exClasses ["Z"] 0 (fun _ => 3)
        (fun _ => none) = ((fun _ => none), some e)) := by
  constructor
  · have h := (scheduleSystemCronFlows_spec exClasses ["A"] 0 (fun _ => 3)
      (fun _ => none) (by decide) (by decide)).2 (by decide)
    refine ⟨h.1, ?_⟩
    have hb := h.2 exClassB (by decide) rfl
    simpa [exClassB] using hb
  · exact (scheduleSystemCronFlows_spec exClasses ["Z"] 0 (fun _ => 3)
      (fun _ => none) (by decide) (by decide)).1 ⟨"Z", by decide, by decide⟩
